import Mathlib

/-!
Verification of the New Relic Lambda extension's telemetry dispatch and
harvest engine against its natural-language specification.

The Go sources embedded here are:
* `telemetryApi` (src/unnamed/part_000): `buildPayloads`,
  `marshalAndCompressData`, `sendData`, `detecteErrorSendingBatch`,
  `sendDataToNR`;
* `agentTelemetry` (src/unnamed/part_001): `AgentTelemetryDispatcher.Dispatch`;
* `telemetry` (src/telemetry/request.go): `CompressedPayloadsForLogEvents`.

Modelling conventions:
* Go `interface{}` values decoded from JSON are modelled by the inductive
  type `JVal` (strings, numbers, maps as association lists, arrays).
  JSON numbers (Go `float64`) are carried as rationals: the code never
  performs arithmetic on them, it only copies them verbatim, so the exact
  numeric representation is irrelevant to every claim.
* gzip compression is modelled by an abstract fitness predicate
  `fits : List α → Bool` standing for "the serialized and compressed form
  of these records is at most the configured size limit".  Compression is
  lossless, so a compressed chunk is represented by the record sequence it
  decompresses to.  Compression failures (which gzip-to-buffer cannot
  produce in practice) are not modelled.
* Recursive functions whose termination depends on the compression
  predicate are given explicit fuel; `none` models non-termination or
  fuel exhaustion.
* A failed Go runtime type assertion (a panic, not an error return) is
  modelled by the distinguished outcome `BuildErr.typeFault`, kept apart
  from `BuildErr.parseErr` which models an `error` value returned by
  `time.Parse`.
-/

/-- A JSON-decoded Go `interface{}` value as consumed by `buildPayloads`:
`jstr` is a Go `string`, `jnum` a Go `float64` (JSON number), `jint` a Go
`int64` (produced only by the builder itself, for `UnixMilli` timestamps),
`jmap` a `map[string]interface{}` (as an association list), and `jarr` a
`[]interface{}`. -/
inductive JVal where
  | jstr (s : String)
  | jnum (q : Rat)
  | jint (n : Int)
  | jmap (fields : List (String × JVal))
  | jarr (elems : List JVal)

/-- Association-list lookup, modelling Go map indexing `m[key]` (JSON
objects have unique keys, so first-match lookup agrees with Go maps). -/
def jlookup (key : String) : List (String × JVal) → Option JVal
  | [] => none
  | (k, v) :: rest => if k = key then some v else jlookup key rest

/-- Field access on a `jmap` record; `none` if the value is not a map or
lacks the key. -/
def recField (r : JVal) (key : String) : Option JVal :=
  match r with
  | .jmap fields => jlookup key fields
  | _ => none

/-- `LogsEvent` from src/telemetry/request.go: a CloudWatch Logs event. -/
structure LogsEvent where
  id : String
  message : String
  timestamp : Int
deriving DecidableEq

/-- `marshalAndCompressData` (src/unnamed/part_000, lines 242-267), the
recursive payload splitter.  `fits l` abstracts
`compress(marshal(l)).Len() <= maxPayloadSizeBytes`; a returned chunk is
the record sequence whose compressed serialization the Go function
returns.  The function is fuelled: `none` models the Go recursion failing
to terminate (which the soundness lemma rules out under the
single-record-fits assumption). -/
def marshalAndCompressData (fits : List JVal → Bool) :
    Nat → List JVal → Option (List (List JVal))
  | 0, _ => none
  | fuel + 1, data =>
    if fits data then some [data]
    else
      match marshalAndCompressData fits fuel (data.take (data.length / 2)),
            marshalAndCompressData fits fuel (data.drop (data.length / 2)) with
      | some leftRet, some rightRet => some (leftRet ++ rightRet)
      | _, _ => none

/-- `CompressedPayloadsForLogEvents` (src/telemetry/request.go, lines
52-100).  `fitsL events` abstracts "the compressed `RequestData` envelope
built around `events` is at most `maxCompressedPayloadLen`" (the envelope
fields are fixed for fixed function name and ARN, so the compressed size
is a function of the event list); a chunk is represented by the event
sequence it carries. -/
def CompressedPayloadsForLogEvents (fitsL : List LogsEvent → Bool) :
    Nat → List LogsEvent → Option (List (List LogsEvent))
  | 0, _ => none
  | fuel + 1, logsEvents =>
    if fitsL logsEvents then some [logsEvents]
    else
      match CompressedPayloadsForLogEvents fitsL fuel
              (logsEvents.take (logsEvents.length / 2)),
            CompressedPayloadsForLogEvents fitsL fuel
              (logsEvents.drop (logsEvents.length / 2)) with
      | some leftRet, some rightRet => some (leftRet ++ rightRet)
      | _, _ => none

theorem marshalAndCompressData_sound (fits : List JVal → Bool)
    (h1 : ∀ r, fits [r] = true) (h0 : fits [] = true) :
    ∀ (fuel : Nat) (l : List JVal), l.length < fuel →
      ∃ chunks, marshalAndCompressData fits fuel l = some chunks ∧
        chunks.flatten = l ∧ ∀ c ∈ chunks, fits c = true := by
  intro fuel
  induction fuel with
  | zero => intro l h; exact absurd h (Nat.not_lt_zero _)
  | succ n ih =>
    intro l hlen
    by_cases hf : fits l = true
    · refine ⟨[l], ?_, by simp, by simp [hf]⟩
      simp [marshalAndCompressData, hf]
    · have hge : 2 ≤ l.length := by
        match l with
        | [] => exact absurd h0 hf
        | [r] => exact absurd (h1 r) hf
        | a :: b :: t => simp
      have hhalf : l.length / 2 < l.length := Nat.div_lt_self (by omega) (by omega)
      have hone : 1 ≤ l.length / 2 :=
        (Nat.le_div_iff_mul_le (by omega)).2 (by omega)
      obtain ⟨cl, hcl, hjl, hfl⟩ := ih (l.take (l.length / 2))
        (by rw [List.length_take]; omega)
      obtain ⟨cr, hcr, hjr, hfr⟩ := ih (l.drop (l.length / 2))
        (by rw [List.length_drop]; omega)
      refine ⟨cl ++ cr, ?_, ?_, ?_⟩
      · simp [marshalAndCompressData, hf, hcl, hcr]
      · rw [List.flatten_append, hjl, hjr, List.take_append_drop]
      · intro c hc
        rcases List.mem_append.1 hc with h | h
        · exact hfl c h
        · exact hfr c h

theorem compressedPayloads_sound (fitsL : List LogsEvent → Bool)
    (h1 : ∀ r, fitsL [r] = true) (h0 : fitsL [] = true) :
    ∀ (fuel : Nat) (l : List LogsEvent), l.length < fuel →
      ∃ chunks, CompressedPayloadsForLogEvents fitsL fuel l = some chunks ∧
        chunks.flatten = l ∧ ∀ c ∈ chunks, fitsL c = true := by
  intro fuel
  induction fuel with
  | zero => intro l h; exact absurd h (Nat.not_lt_zero _)
  | succ n ih =>
    intro l hlen
    by_cases hf : fitsL l = true
    · refine ⟨[l], ?_, by simp, by simp [hf]⟩
      simp [CompressedPayloadsForLogEvents, hf]
    · have hge : 2 ≤ l.length := by
        match l with
        | [] => exact absurd h0 hf
        | [r] => exact absurd (h1 r) hf
        | a :: b :: t => simp
      have hhalf : l.length / 2 < l.length := Nat.div_lt_self (by omega) (by omega)
      have hone : 1 ≤ l.length / 2 :=
        (Nat.le_div_iff_mul_le (by omega)).2 (by omega)
      obtain ⟨cl, hcl, hjl, hfl⟩ := ih (l.take (l.length / 2))
        (by rw [List.length_take]; omega)
      obtain ⟨cr, hcr, hjr, hfr⟩ := ih (l.drop (l.length / 2))
        (by rw [List.length_drop]; omega)
      refine ⟨cl ++ cr, ?_, ?_, ?_⟩
      · simp [CompressedPayloadsForLogEvents, hf, hcl, hcr]
      · rw [List.flatten_append, hjl, hjr, List.take_append_drop]
      · intro c hc
        rcases List.mem_append.1 hc with h | h
        · exact hfl c h
        · exact hfr c h

/-- Claim C1: for every sequence of payload records and every compression
behaviour, the splitters (`marshalAndCompressData` and
`CompressedPayloadsForLogEvents`) return chunks whose record sequences
concatenate, left to right, to exactly the original sequence in order,
and — under the hypothesis that every single record compresses to at most
the limit (`h1` / `h1L`; `h0` / `h0L` extend the hypothesis to the
degenerate empty payload, which the concrete gzip compressor trivially
satisfies at the fixed megabyte limits) — every returned chunk fits under
the limit. -/
theorem c1_splitter_correct (fits : List JVal → Bool)
    (fitsL : List LogsEvent → Bool)
    (h1 : ∀ r, fits [r] = true) (h0 : fits [] = true)
    (h1L : ∀ r, fitsL [r] = true) (h0L : fitsL [] = true)
    (l : List JVal) (le : List LogsEvent) :
    (∃ chunks, marshalAndCompressData fits (l.length + 1) l = some chunks ∧
      chunks.flatten = l ∧ ∀ c ∈ chunks, fits c = true) ∧
    (∃ chunks,
      CompressedPayloadsForLogEvents fitsL (le.length + 1) le = some chunks ∧
      chunks.flatten = le ∧ ∀ c ∈ chunks, fitsL c = true) :=
  ⟨marshalAndCompressData_sound fits h1 h0 (l.length + 1) l (Nat.lt_succ_self _),
   compressedPayloads_sound fitsL h1L h0L (le.length + 1) le (Nat.lt_succ_self _)⟩

theorem c1_splitter_correct_witness :
    (∃ chunks,
      marshalAndCompressData (fun l => decide (l.length ≤ 1)) 3
        [JVal.jstr "a", JVal.jstr "b"] = some chunks ∧
      chunks.flatten = [JVal.jstr "a", JVal.jstr "b"] ∧
      ∀ c ∈ chunks, (fun l : List JVal => decide (l.length ≤ 1)) c = true) ∧
    (∃ chunks,
      CompressedPayloadsForLogEvents (fun l => decide (l.length ≤ 1)) 3
        [⟨"i1", "m1", 0⟩, ⟨"i2", "m2", 1⟩] = some chunks ∧
      chunks.flatten = [⟨"i1", "m1", 0⟩, ⟨"i2", "m2", 1⟩] ∧
      ∀ c ∈ chunks, (fun l : List LogsEvent => decide (l.length ≤ 1)) c = true) :=
  c1_splitter_correct (fun l => decide (l.length ≤ 1))
    (fun l => decide (l.length ≤ 1))
    (fun r => by simp) (by simp) (fun r => by simp) (by simp)
    [JVal.jstr "a", JVal.jstr "b"] [⟨"i1", "m1", 0⟩, ⟨"i2", "m2", 1⟩]

/-- Claim C4: under the precondition that every single record compresses
to at most the limit (extended to the empty payload, which gzip trivially
satisfies), the recursive bisecting splitters terminate on every input:
with fuel one more than the input length they return a result instead of
exhausting the recursion. -/
theorem c4_splitter_terminates (fits : List JVal → Bool)
    (fitsL : List LogsEvent → Bool)
    (h1 : ∀ r, fits [r] = true) (h0 : fits [] = true)
    (h1L : ∀ r, fitsL [r] = true) (h0L : fitsL [] = true)
    (l : List JVal) (le : List LogsEvent) :
    (marshalAndCompressData fits (l.length + 1) l).isSome = true ∧
    (CompressedPayloadsForLogEvents fitsL (le.length + 1) le).isSome = true := by
  obtain ⟨cs, hcs, -, -⟩ :=
    marshalAndCompressData_sound fits h1 h0 (l.length + 1) l (Nat.lt_succ_self _)
  obtain ⟨ds, hds, -, -⟩ :=
    compressedPayloads_sound fitsL h1L h0L (le.length + 1) le (Nat.lt_succ_self _)
  exact ⟨by rw [hcs]; rfl, by rw [hds]; rfl⟩

theorem c4_splitter_terminates_witness :
    (marshalAndCompressData (fun l => decide (l.length ≤ 1)) 4
      [JVal.jstr "x", JVal.jstr "y", JVal.jstr "z"]).isSome = true ∧
    (CompressedPayloadsForLogEvents (fun l => decide (l.length ≤ 1)) 2
      [⟨"i1", "m1", 7⟩]).isSome = true :=
  c4_splitter_terminates (fun l => decide (l.length ≤ 1))
    (fun l => decide (l.length ≤ 1))
    (fun r => by simp) (by simp) (fun r => by simp) (by simp)
    [JVal.jstr "x", JVal.jstr "y", JVal.jstr "z"] [⟨"i1", "m1", 7⟩]

/-- Modelled from the spec: the extension's identity constants (`util.Name`,
`util.Id`, `util.Version`) live in the repository's `util` package, which is
not among the sources under analysis; the spec treats them as opaque identity
attributes, so they are modelled as fixed uninterpreted strings.  No claim
depends on their values. -/
def utilName : String := "newrelic-lambda-extension"

/-- Modelled from the spec: opaque plugin identifier `util.Id` (see
`utilName`). -/
def utilId : String := "newrelic-lambda-extension.plugin"

/-- Modelled from the spec: opaque version string `util.Version` (see
`utilName`). -/
def utilVersion : String := "x.y.z"

/-- Modelled from the spec: each trace span is assigned a new unique span
identifier (`uuid.New().String()`, an external library call); modelled as a
deterministic fresh identifier indexed by a span counter threaded through the
build.  No claim depends on identifier values, only on their assignment. -/
def uuidString (n : Nat) : String := "00000000-0000-0000-0000-" ++ toString n

def digitVal (c : Char) : Option Nat :=
  if c.isDigit then some (c.toNat - 48) else none

def parse2 (a b : Char) : Option Nat := do
  let x ← digitVal a
  let y ← digitVal b
  pure (10 * x + y)

def parse4 (a b c d : Char) : Option Nat := do
  let x ← parse2 a b
  let y ← parse2 c d
  pure (100 * x + y)

def isLeapYear (y : Nat) : Bool :=
  (y % 4 = 0 && y % 100 ≠ 0) || y % 400 = 0

def daysInMonth (y m : Nat) : Nat :=
  if m = 2 then (if isLeapYear y then 29 else 28)
  else if m = 4 || m = 6 || m = 9 || m = 11 then 30
  else 31

/-- Days from the Unix epoch to the given civil date (proleptic Gregorian);
the standard era-based algorithm. -/
def daysFromCivil (y : Int) (m d : Nat) : Int :=
  let y' : Int := if m ≤ 2 then y - 1 else y
  let era : Int := (if 0 ≤ y' then y' else y' - 399) / 400
  let yoe : Int := y' - era * 400
  let mp : Int := if 2 < m then (m : Int) - 3 else (m : Int) + 9
  let doy : Int := (153 * mp + 2) / 5 + (d : Int) - 1
  let doe : Int := yoe * 365 + yoe / 4 - yoe / 100 + doy
  era * 146097 + doe - 719468

/-- Modelled from the spec: the Go standard library call
`time.Parse(time.RFC3339, s)` followed by `.UnixMilli()` (an external
collaborator, not repository code).  The model accepts the UTC instant form
`YYYY-MM-DDThh:mm:ssZ` and yields the epoch milliseconds; every other string
fails to parse.  The claims depend only on the success/failure dichotomy and
on the concrete timestamp `2024-01-01T00:00:00Z`. -/
def parseRFC3339 (s : String) : Option Int :=
  match s.toList with
  | [y1, y2, y3, y4, '-', mo1, mo2, '-', d1, d2, 'T',
     h1, h2, ':', mi1, mi2, ':', se1, se2, 'Z'] => do
    let y ← parse4 y1 y2 y3 y4
    let mo ← parse2 mo1 mo2
    let d ← parse2 d1 d2
    let h ← parse2 h1 h2
    let mi ← parse2 mi1 mi2
    let se ← parse2 se1 se2
    if 1 ≤ mo ∧ mo ≤ 12 ∧ 1 ≤ d ∧ d ≤ daysInMonth y mo ∧
        h ≤ 23 ∧ mi ≤ 59 ∧ se ≤ 59 then
      some (daysFromCivil (y : Int) mo d * 86400000 +
        ((h * 3600 + mi * 60 + se : Nat) : Int) * 1000)
    else none
  | _ => none

/-- `UnixMilli()` of Go's zero `time.Time` (used when a span carries no
`start` field: `var start time.Time` keeps its zero value). -/
def goZeroTimeUnixMilli : Int := -62135596800000

/-- Rendering of a rational (standing for a Go `float64`) inside
`fmt.Sprint` output; exact glyphs are irrelevant to the claims. -/
def ratSprint (q : Rat) : String :=
  if q.den = 1 then toString q.num else toString q.num ++ "/" ++ toString q.den

mutual

/-- Models `fmt.Sprint(record)` (src/unnamed/part_000, line 154): the
human-readable rendering of a decoded JSON value, maps as
`map[key:value ...]` and arrays as `[elem ...]`.  (Go additionally sorts
map keys when printing; the model renders fields in association-list
order, which agrees on the inputs used by the claims.) -/
def sprint : JVal → String
  | .jstr s => s
  | .jnum q => ratSprint q
  | .jint n => toString n
  | .jmap fields => "map[" ++ sprintFields fields ++ "]"
  | .jarr elems => "[" ++ sprintElems elems ++ "]"

def sprintFields : List (String × JVal) → String
  | [] => ""
  | [(k, v)] => k ++ ":" ++ sprint v
  | (k, v) :: rest => k ++ ":" ++ sprint v ++ " " ++ sprintFields rest

def sprintElems : List JVal → String
  | [] => ""
  | [v] => sprint v
  | v :: rest => sprint v ++ " " ++ sprintElems rest

end

/-- `maxLogMsgLen` (src/unnamed/part_000, line 39): maximum logged message
length, `4094 + 10000`. -/
def maxLogMsgLen : Nat := 4094 + 10000

/-- The truncation applied at src/unnamed/part_000, lines 155-157
(`if len(msg) > maxLogMsgLen { msg = msg[:maxLogMsgLen] }`; the Go code
slices bytes, the model takes characters, which coincide on ASCII). -/
def logTruncate (msg : String) : String :=
  if msg.length > maxLogMsgLen then msg.take maxLogMsgLen else msg

/-- `strings.NewReplacer(".", "_")` applied to the event type
(src/unnamed/part_000, lines 126 and 150). -/
def replaceDots (s : String) : String :=
  s.map (fun c => if c = '.' then '_' else c)

/-- `LambdaTelemetryEvent` as consumed by `buildPayloads`: primary
timestamp string `Time`, event type `Typ` (Go field `Type`), and optional
record body (`Record` is `interface{}`, possibly nil). -/
structure LambdaTelemetryEvent where
  Time : String
  Typ : String
  Record : Option JVal

/-- One element of the `[]interface{}` passed to `buildPayloads`: either a
`LambdaTelemetryEvent` or some other value, for which the unchecked type
assertion `event.(LambdaTelemetryEvent)` (line 136) panics. -/
inductive RawEntry where
  | lte (e : LambdaTelemetryEvent)
  | notLTE

/-- Outcome of a failed build: `parseErr` models an `error` value returned
by `time.Parse` and propagated with `return nil, err`; `typeFault` models a
runtime panic from a failed type assertion (not an error return). -/
inductive BuildErr where
  | parseErr (s : String)
  | typeFault
deriving DecidableEq

/-- The four signal collections built per harvest cycle, i.e. the
`map[string][]map[string]interface{}` of `buildPayloads` with its fixed
keys `events`, `logging`, `metrics`, `traces`. -/
structure Payloads where
  events : List JVal
  logging : List JVal
  metrics : List JVal
  traces : List JVal

/-- The `Dispatcher` identity fields read by `buildPayloads` and
`sendDataToNR`. -/
structure DispatcherInfo where
  functionName : String
  arn : String
  licenseKey : String
  accountID : String

/-- The event record appended per raw entry (src/unnamed/part_000,
lines 141-151). -/
def eventRecord (d : DispatcherInfo) (ms : Int) (etype : String) : JVal :=
  .jmap [("timestamp", .jint ms),
         ("eventType", .jstr "TelemetryApiEvent"),
         ("extension.name", .jstr utilName),
         ("extension.version", .jstr utilVersion),
         ("lambda.name", .jstr d.functionName),
         ("lambda.logevent.type", .jstr (replaceDots etype))]

/-- The logging record appended per raw entry with a non-nil record body
(src/unnamed/part_000, lines 158-179). -/
def loggingRecord (d : DispatcherInfo) (RequestID : String) (ms : Int)
    (etype msg : String) : JVal :=
  .jmap [("timestamp", .jint ms),
         ("message", .jstr msg),
         ("attributes", .jmap
           [("plugin", .jstr utilId),
            ("entity", .jmap [("name", .jstr d.functionName)]),
            ("faas", .jmap [("arn", .jstr d.arn),
                            ("name", .jstr d.functionName)]),
            ("aws", .jmap
              [("lambda.logevent.type", .jstr etype),
               ("extension.name", .jstr utilName),
               ("extension.version", .jstr utilVersion),
               ("lambda.name", .jstr d.functionName),
               ("lambda.arn", .jstr d.arn),
               ("requestId", .jstr RequestID)])])]

/-- One metric record (src/unnamed/part_000, lines 190-204); note the
source fills attribute `extension.name` with the function name here. -/
def metricRecord (d : DispatcherInfo) (ms : Int) (etype rid key : String)
    (v : JVal) : JVal :=
  .jmap [("name", .jstr ("aws.telemetry.lambda_ext." ++ key)),
         ("value", v),
         ("timestamp", .jint ms),
         ("attributes", .jmap
           [("plugin", .jstr utilId),
            ("faas.arn", .jstr d.arn),
            ("faas.name", .jstr d.functionName),
            ("lambda.logevent.type", .jstr etype),
            ("requestId", .jstr rid),
            ("extension.name", .jstr d.functionName),
            ("extension.version", .jstr utilVersion),
            ("lambda.name", .jstr d.functionName)])]

/-- The loop over the `metrics` sub-map (src/unnamed/part_000,
lines 188-206): one metric record per key, value copied verbatim. -/
def buildMetricRecords (d : DispatcherInfo) (ms : Int) (etype rid : String)
    (mm : List (String × JVal)) : List JVal :=
  mm.map (fun kv => metricRecord d ms etype rid kv.1 kv.2)

/-- The loop over one span's fields (src/unnamed/part_000, lines 214-225):
`durationMs` is asserted `float64` and becomes attribute `duration.ms`;
`start` is asserted `string` and parsed (parse failure returns the error);
every remaining value is asserted `string` and copied.  A failed assertion
is the `typeFault` outcome. -/
def processSpanFields :
    List (String × JVal) → List (String × JVal) → Int →
      Except BuildErr (List (String × JVal) × Int)
  | [], attrs, startMs => .ok (attrs, startMs)
  | (key, v) :: rest, attrs, startMs =>
    if key = "durationMs" then
      match v with
      | .jnum q => processSpanFields rest (attrs ++ [("duration.ms", JVal.jnum q)]) startMs
      | _ => .error .typeFault
    else if key = "start" then
      match v with
      | .jstr s =>
        match parseRFC3339 s with
        | some ms => processSpanFields rest attrs ms
        | none => .error (.parseErr s)
      | _ => .error .typeFault
    else
      match v with
      | .jstr s => processSpanFields rest (attrs ++ [(key, JVal.jstr s)]) startMs
      | _ => .error .typeFault

/-- The loop over the `spans` sub-array (src/unnamed/part_000,
lines 208-234): each element is asserted to be a map (panic otherwise),
its fields are folded into attributes, and a trace record is emitted with
a fresh identifier. -/
def processSpans (etype rid : String) :
    List JVal → Nat → Except BuildErr (List JVal × Nat)
  | [], ctr => .ok ([], ctr)
  | span :: rest, ctr =>
    match span with
    | .jmap fields =>
      match processSpanFields fields
          [("event", .jstr etype), ("service.name", .jstr utilName)]
          goZeroTimeUnixMilli with
      | .error er => .error er
      | .ok (attrs, startMs) =>
        let el := JVal.jmap [("trace.id", .jstr rid),
                             ("timestamp", .jint startMs),
                             ("id", .jstr (uuidString ctr)),
                             ("attributes", .jmap attrs)]
        match processSpans etype rid rest (ctr + 1) with
        | .error er => .error er
        | .ok (els, ctr') => .ok (el :: els, ctr')
    | _ => .error .typeFault

/-- The `requestId` extraction of src/unnamed/part_000, lines 184-187: the
comma-ok string assertion on `eventRecord["requestId"]`, defaulting to the
empty string. -/
def recRequestId (m : List (String × JVal)) : String :=
  match jlookup "requestId" m with
  | some (.jstr v) => v
  | _ => ""

/-- The comma-ok map assertion on `eventRecord["metrics"]`
(src/unnamed/part_000, line 188): the metric entries, or nothing when the
key is absent or not a map. -/
def metricsOf (m : List (String × JVal)) : List (String × JVal) :=
  match jlookup "metrics" m with
  | some (.jmap mm) => mm
  | _ => []

/-- The comma-ok array assertion on `eventRecord["spans"]`
(src/unnamed/part_000, line 208). -/
def spansOf (m : List (String × JVal)) : Option (List JVal) :=
  match jlookup "spans" m with
  | some (.jarr spans) => some spans
  | _ => none

/-- Processing of one entry of the `logEntries` loop (src/unnamed/part_000,
lines 135-237): assert the entry is a `LambdaTelemetryEvent` (panic
otherwise), parse its primary timestamp (abort with the error on failure),
emit the event record, and — when the record body is non-nil — the logging
record plus, for map bodies, the metric and trace records. -/
def processEntry (d : DispatcherInfo) (RequestID : String) (e : RawEntry)
    (ctr : Nat) : Except BuildErr (Payloads × Nat) :=
  match e with
  | .notLTE => .error .typeFault
  | .lte ev =>
    match parseRFC3339 ev.Time with
    | none => .error (.parseErr ev.Time)
    | some ms =>
      let evRec := eventRecord d ms ev.Typ
      match ev.Record with
      | none => .ok (⟨[evRec], [], [], []⟩, ctr)
      | some rec =>
        let logRec := loggingRecord d RequestID ms ev.Typ (logTruncate (sprint rec))
        match rec with
        | .jmap m =>
          let rid := recRequestId m
          let mets := buildMetricRecords d ms ev.Typ rid (metricsOf m)
          match (match spansOf m with
                 | some spans => processSpans ev.Typ rid spans ctr
                 | none => Except.ok ([], ctr)) with
          | .error er => .error er
          | .ok (traceRecs, ctr') =>
            .ok (⟨[evRec], [logRec], mets, traceRecs⟩, ctr')
        | _ => .ok (⟨[evRec], [logRec], [], []⟩, ctr)

/-- The entry loop of `buildPayloads`: per-entry contributions are
concatenated in input order; the first error (or panic) aborts the
whole build. -/
def processEntries (d : DispatcherInfo) (RequestID : String) :
    List RawEntry → Nat → Except BuildErr Payloads
  | [], _ => .ok ⟨[], [], [], []⟩
  | e :: rest, ctr =>
    match processEntry d RequestID e ctr with
    | .error er => .error er
    | .ok (p, ctr') =>
      match processEntries d RequestID rest ctr' with
      | .error er => .error er
      | .ok prest =>
        .ok ⟨p.events ++ prest.events, p.logging ++ prest.logging,
             p.metrics ++ prest.metrics, p.traces ++ prest.traces⟩

/-- `buildPayloads` (src/unnamed/part_000, lines 121-240). -/
def buildPayloads (logEntries : List RawEntry) (d : DispatcherInfo)
    (RequestID : String) : Except BuildErr Payloads :=
  processEntries d RequestID logEntries 0

/-- Observation helper: the events collection of a successful build. -/
def builtEvents (r : Except BuildErr Payloads) : List JVal :=
  match r with
  | .ok P => P.events
  | .error _ => []

/-- Observation helper: the logging collection of a successful build. -/
def builtLogging (r : Except BuildErr Payloads) : List JVal :=
  match r with
  | .ok P => P.logging
  | .error _ => []

/-- Observation helper: the metrics collection of a successful build. -/
def builtMetrics (r : Except BuildErr Payloads) : List JVal :=
  match r with
  | .ok P => P.metrics
  | .error _ => []

/-- Observation helper: the traces collection of a successful build. -/
def builtTraces (r : Except BuildErr Payloads) : List JVal :=
  match r with
  | .ok P => P.traces
  | .error _ => []

/-- Whether a build succeeded (returned a payload map, no error, no
panic). -/
def buildSucceeded (r : Except BuildErr Payloads) : Bool :=
  match r with
  | .ok _ => true
  | .error _ => false

/-- The concrete raw record body of the end-to-end example of the spec:
`{"metrics":{"duration":120.5},"spans":[{"start":"2024-01-01T00:00:00Z",
"durationMs":5,"name":"seg1"}]}`. -/
def c7record : JVal :=
  .jmap [("metrics", .jmap [("duration", .jnum (241 / 2))]),
         ("spans", .jarr [.jmap [("start", .jstr "2024-01-01T00:00:00Z"),
                                 ("durationMs", .jnum 5),
                                 ("name", .jstr "seg1")]])]

/-- The single raw entry of the end-to-end example: timestamp
`2024-01-01T00:00:00Z` and the structured body `c7record`. -/
def c7entries : List RawEntry :=
  [.lte ⟨"2024-01-01T00:00:00Z", "platform.report", some c7record⟩]

/-- A concrete dispatcher identity for the end-to-end example. -/
def c7disp : DispatcherInfo :=
  ⟨"my-function", "arn:aws:lambda:us-east-1:123:function:my-function",
   "licenseKey", "12345"⟩

/-- Claim C7: building payloads from one raw record with timestamp
`2024-01-01T00:00:00Z` and the structured body of `c7record` yields
exactly 1 event record, 1 logging record whose message is the (possibly
truncated) rendering of the body, 1 metric record named
`aws.telemetry.lambda_ext.duration` with value 120.5, and 1 trace span
record whose attributes map `duration.ms` to 5 and `name` to `seg1`. -/
theorem c7_end_to_end_example :
    buildSucceeded (buildPayloads c7entries c7disp "req-123") = true ∧
    (builtEvents (buildPayloads c7entries c7disp "req-123")).length = 1 ∧
    (builtLogging (buildPayloads c7entries c7disp "req-123")).map
        (fun r => recField r "message") =
      [some (JVal.jstr (logTruncate (sprint c7record)))] ∧
    (builtMetrics (buildPayloads c7entries c7disp "req-123")).map
        (fun m => (recField m "name", recField m "value")) =
      [(some (JVal.jstr "aws.telemetry.lambda_ext.duration"),
        some (JVal.jnum (241 / 2)))] ∧
    (builtTraces (buildPayloads c7entries c7disp "req-123")).map
        (fun t => ((recField t "attributes").bind (fun a => recField a "duration.ms"),
                   (recField t "attributes").bind (fun a => recField a "name"))) =
      [(some (JVal.jnum 5), some (JVal.jstr "seg1"))] :=
  ⟨rfl, rfl, rfl, rfl, rfl⟩

/-- The typing discipline the span-field loop's runtime assertions demand:
a `durationMs` value must be a number (`float64`), every other value
(including `start`) must be a string. -/
def wellTypedSpanField (f : String × JVal) : Bool :=
  if f.1 = "durationMs" then
    match f.2 with
    | .jnum _ => true
    | _ => false
  else
    match f.2 with
    | .jstr _ => true
    | _ => false

/-- A span element must be a map (the assertion
`span.(map[string]interface{})` has no comma-ok form) with well-typed
fields. -/
def wellTypedSpan (s : JVal) : Bool :=
  match s with
  | .jmap fields => fields.all wellTypedSpanField
  | _ => false

/-- The precondition under which `buildPayloads` cannot panic: the entry
is a `LambdaTelemetryEvent`, and if its record body is a map carrying a
`spans` array, every span element is a well-typed map. -/
def wellTypedEntry : RawEntry → Bool
  | .notLTE => false
  | .lte ev =>
    match ev.Record with
    | some (.jmap m) =>
      match spansOf m with
      | some spans => spans.all wellTypedSpan
      | none => true
    | _ => true

def wellTypedEntries (entries : List RawEntry) : Bool :=
  entries.all wellTypedEntry

/-- A span field that makes the build abort: a `start` field whose string
value fails to parse as RFC3339. -/
def spanFieldBadStart (f : String × JVal) : Bool :=
  f.1 = "start" &&
    (match f.2 with
     | .jstr s => (parseRFC3339 s).isNone
     | _ => false)

def spanHasBadStart (s : JVal) : Bool :=
  match s with
  | .jmap fields => fields.any spanFieldBadStart
  | _ => false

/-- An entry whose primary timestamp, or one of whose spans' `start`
fields, fails to parse as RFC3339. -/
def entryBadTimestamp : RawEntry → Bool
  | .notLTE => false
  | .lte ev =>
    (parseRFC3339 ev.Time).isNone ||
      (match ev.Record with
       | some (.jmap m) =>
         match spansOf m with
         | some spans => spans.any spanHasBadStart
         | none => false
       | _ => false)

def hasBadTimestamp (entries : List RawEntry) : Bool :=
  entries.any entryBadTimestamp

theorem processSpanFields_wt (fields : List (String × JVal))
    (hwt : fields.all wellTypedSpanField = true) :
    ∀ attrs startMs,
      (∃ out, processSpanFields fields attrs startMs = .ok out) ∨
      (∃ s, processSpanFields fields attrs startMs = .error (.parseErr s)) := by
  induction fields with
  | nil => intro attrs st; exact Or.inl ⟨(attrs, st), rfl⟩
  | cons f rest ih =>
    obtain ⟨key, v⟩ := f
    simp only [List.all_cons, Bool.and_eq_true] at hwt
    obtain ⟨hf, hrest⟩ := hwt
    intro attrs st
    by_cases hk : key = "durationMs"
    · subst hk
      simp only [wellTypedSpanField, if_pos rfl] at hf
      cases v with
      | jnum q =>
        simpa only [processSpanFields, if_pos rfl] using ih hrest _ _
      | jstr s => simp at hf
      | jint n => simp at hf
      | jmap m => simp at hf
      | jarr a => simp at hf
    · simp only [wellTypedSpanField, if_neg hk] at hf
      cases v with
      | jstr s =>
        by_cases hs : key = "start"
        · subst hs
          cases hp : parseRFC3339 s with
          | none =>
            refine Or.inr ⟨s, ?_⟩
            simp [processSpanFields, hp]
          | some ms =>
            simpa only [processSpanFields, if_neg hk, if_pos rfl, hp]
              using ih hrest _ _
        · simpa only [processSpanFields, if_neg hk, if_neg hs]
            using ih hrest _ _
      | jnum q => simp at hf
      | jint n => simp at hf
      | jmap m => simp at hf
      | jarr a => simp at hf

theorem processSpanFields_bad (fields : List (String × JVal))
    (hwt : fields.all wellTypedSpanField = true)
    (hbad : fields.any spanFieldBadStart = true) :
    ∀ attrs startMs,
      ∃ s, processSpanFields fields attrs startMs = .error (.parseErr s) := by
  induction fields with
  | nil => simp at hbad
  | cons f rest ih =>
    obtain ⟨key, v⟩ := f
    simp only [List.all_cons, Bool.and_eq_true] at hwt
    obtain ⟨hf, hrest⟩ := hwt
    simp only [List.any_cons, Bool.or_eq_true] at hbad
    intro attrs st
    by_cases hk : key = "durationMs"
    · subst hk
      simp only [wellTypedSpanField, if_pos rfl] at hf
      cases v with
      | jnum q =>
        have hbad' : rest.any spanFieldBadStart = true := by
          rcases hbad with h | h
          · simp [spanFieldBadStart] at h
          · exact h
        simpa only [processSpanFields, if_pos rfl] using ih hrest hbad' _ _
      | jstr s => simp at hf
      | jint n => simp at hf
      | jmap m => simp at hf
      | jarr a => simp at hf
    · simp only [wellTypedSpanField, if_neg hk] at hf
      cases v with
      | jstr s =>
        by_cases hs : key = "start"
        · subst hs
          cases hp : parseRFC3339 s with
          | none =>
            refine ⟨s, ?_⟩
            simp [processSpanFields, hp]
          | some ms =>
            have hbad' : rest.any spanFieldBadStart = true := by
              rcases hbad with h | h
              · simp [spanFieldBadStart, hp] at h
              · exact h
            simpa only [processSpanFields, if_neg hk, if_pos rfl, hp]
              using ih hrest hbad' _ _
        · have hbad' : rest.any spanFieldBadStart = true := by
            rcases hbad with h | h
            · simp [spanFieldBadStart, hs] at h
            · exact h
          simpa only [processSpanFields, if_neg hk, if_neg hs]
            using ih hrest hbad' _ _
      | jnum q => simp at hf
      | jint n => simp at hf
      | jmap m => simp at hf
      | jarr a => simp at hf

theorem processSpanFields_illtyped (fields : List (String × JVal))
    (hwt : fields.all wellTypedSpanField = false) :
    ∀ attrs startMs,
      processSpanFields fields attrs startMs = .error .typeFault ∨
      ∃ s, processSpanFields fields attrs startMs = .error (.parseErr s) := by
  induction fields with
  | nil => simp at hwt
  | cons f rest ih =>
    obtain ⟨key, v⟩ := f
    simp only [List.all_cons, Bool.and_eq_false_iff] at hwt
    intro attrs st
    by_cases hk : key = "durationMs"
    · subst hk
      cases v with
      | jnum q =>
        have hrest : rest.all wellTypedSpanField = false := by
          rcases hwt with h | h
          · simp [wellTypedSpanField] at h
          · exact h
        simpa only [processSpanFields, if_pos rfl] using ih hrest _ _
      | jstr s => exact Or.inl (by simp [processSpanFields])
      | jint n => exact Or.inl (by simp [processSpanFields])
      | jmap m => exact Or.inl (by simp [processSpanFields])
      | jarr a => exact Or.inl (by simp [processSpanFields])
    · cases v with
      | jstr s =>
        have hrest : rest.all wellTypedSpanField = false := by
          rcases hwt with h | h
          · simp [wellTypedSpanField, if_neg hk] at h
          · exact h
        by_cases hs : key = "start"
        · subst hs
          cases hp : parseRFC3339 s with
          | none =>
            refine Or.inr ⟨s, ?_⟩
            simp [processSpanFields, hp]
          | some ms =>
            simpa only [processSpanFields, if_neg hk, if_pos rfl, hp]
              using ih hrest _ _
        · simpa only [processSpanFields, if_neg hk, if_neg hs]
            using ih hrest _ _
      | jnum q =>
        refine Or.inl ?_
        by_cases hs : key = "start" <;>
          simp [processSpanFields, if_neg hk, hs]
      | jint n =>
        refine Or.inl ?_
        by_cases hs : key = "start" <;>
          simp [processSpanFields, if_neg hk, hs]
      | jmap m =>
        refine Or.inl ?_
        by_cases hs : key = "start" <;>
          simp [processSpanFields, if_neg hk, hs]
      | jarr a =>
        refine Or.inl ?_
        by_cases hs : key = "start" <;>
          simp [processSpanFields, if_neg hk, hs]

theorem processSpans_wt (etype rid : String) (spans : List JVal)
    (hwt : spans.all wellTypedSpan = true) :
    ∀ ctr, (∃ out, processSpans etype rid spans ctr = .ok out) ∨
      (∃ s, processSpans etype rid spans ctr = .error (.parseErr s)) := by
  induction spans with
  | nil => intro ctr; exact Or.inl ⟨([], ctr), rfl⟩
  | cons sp rest ih =>
    simp only [List.all_cons, Bool.and_eq_true] at hwt
    obtain ⟨hsp, hrest⟩ := hwt
    intro ctr
    cases sp with
    | jmap fields =>
      simp only [wellTypedSpan] at hsp
      rcases processSpanFields_wt fields hsp
          [("event", .jstr etype), ("service.name", .jstr utilName)]
          goZeroTimeUnixMilli with ⟨⟨attrs, startMs⟩, hok⟩ | ⟨s, herr⟩
      · rcases ih hrest (ctr + 1) with ⟨⟨els, ctr'⟩, hok'⟩ | ⟨s, herr'⟩
        · refine Or.inl ?_
          simp only [processSpans, hok, hok']
          exact ⟨_, rfl⟩
        · exact Or.inr ⟨s, by simp [processSpans, hok, herr']⟩
      · exact Or.inr ⟨s, by simp [processSpans, herr]⟩
    | jstr s => simp [wellTypedSpan] at hsp
    | jnum q => simp [wellTypedSpan] at hsp
    | jint n => simp [wellTypedSpan] at hsp
    | jarr a => simp [wellTypedSpan] at hsp

theorem processSpans_bad (etype rid : String) (spans : List JVal)
    (hwt : spans.all wellTypedSpan = true)
    (hbad : spans.any spanHasBadStart = true) :
    ∀ ctr, ∃ s, processSpans etype rid spans ctr = .error (.parseErr s) := by
  induction spans with
  | nil => simp at hbad
  | cons sp rest ih =>
    simp only [List.all_cons, Bool.and_eq_true] at hwt
    obtain ⟨hsp, hrest⟩ := hwt
    simp only [List.any_cons, Bool.or_eq_true] at hbad
    intro ctr
    cases sp with
    | jmap fields =>
      simp only [wellTypedSpan] at hsp
      rcases hbad with h | h
      · simp only [spanHasBadStart] at h
        obtain ⟨s, herr⟩ := processSpanFields_bad fields hsp h
          [("event", .jstr etype), ("service.name", .jstr utilName)]
          goZeroTimeUnixMilli
        exact ⟨s, by simp [processSpans, herr]⟩
      · rcases processSpanFields_wt fields hsp
            [("event", .jstr etype), ("service.name", .jstr utilName)]
            goZeroTimeUnixMilli with ⟨⟨attrs, startMs⟩, hok⟩ | ⟨s, herr⟩
        · obtain ⟨s, herr'⟩ := ih hrest h (ctr + 1)
          exact ⟨s, by simp [processSpans, hok, herr']⟩
        · exact ⟨s, by simp [processSpans, herr]⟩
    | jstr s => simp [wellTypedSpan] at hsp
    | jnum q => simp [wellTypedSpan] at hsp
    | jint n => simp [wellTypedSpan] at hsp
    | jarr a => simp [wellTypedSpan] at hsp

theorem processSpans_illtyped (etype rid : String) (spans : List JVal)
    (hwt : spans.all wellTypedSpan = false) :
    ∀ ctr, processSpans etype rid spans ctr = .error .typeFault ∨
      ∃ s, processSpans etype rid spans ctr = .error (.parseErr s) := by
  induction spans with
  | nil => simp at hwt
  | cons sp rest ih =>
    simp only [List.all_cons, Bool.and_eq_false_iff] at hwt
    intro ctr
    cases sp with
    | jmap fields =>
      rcases hwt with h | h
      · simp only [wellTypedSpan] at h
        rcases processSpanFields_illtyped fields h
            [("event", .jstr etype), ("service.name", .jstr utilName)]
            goZeroTimeUnixMilli with hft | ⟨s, herr⟩
        · exact Or.inl (by simp [processSpans, hft])
        · exact Or.inr ⟨s, by simp [processSpans, herr]⟩
      · by_cases hsp : fields.all wellTypedSpanField = true
        · rcases processSpanFields_wt fields hsp
              [("event", .jstr etype), ("service.name", .jstr utilName)]
              goZeroTimeUnixMilli with ⟨⟨attrs, startMs⟩, hok⟩ | ⟨s, herr⟩
          · rcases ih h (ctr + 1) with hft | ⟨s, herr'⟩
            · exact Or.inl (by simp [processSpans, hok, hft])
            · exact Or.inr ⟨s, by simp [processSpans, hok, herr']⟩
          · exact Or.inr ⟨s, by simp [processSpans, herr]⟩
        · rcases processSpanFields_illtyped fields
              (Bool.eq_false_iff.2 hsp)
              [("event", .jstr etype), ("service.name", .jstr utilName)]
              goZeroTimeUnixMilli with hft | ⟨s, herr⟩
          · exact Or.inl (by simp [processSpans, hft])
          · exact Or.inr ⟨s, by simp [processSpans, herr]⟩
    | jstr s => exact Or.inl (by simp [processSpans])
    | jnum q => exact Or.inl (by simp [processSpans])
    | jint n => exact Or.inl (by simp [processSpans])
    | jarr a => exact Or.inl (by simp [processSpans])

theorem processEntry_wt (d : DispatcherInfo) (RequestID : String)
    (e : RawEntry) (hwt : wellTypedEntry e = true) :
    ∀ ctr, (∃ out, processEntry d RequestID e ctr = .ok out) ∨
      (∃ s, processEntry d RequestID e ctr = .error (.parseErr s)) := by
  intro ctr
  cases e with
  | notLTE => simp [wellTypedEntry] at hwt
  | lte ev =>
    cases hp : parseRFC3339 ev.Time with
    | none => exact Or.inr ⟨ev.Time, by simp [processEntry, hp]⟩
    | some ms =>
      cases hr : ev.Record with
      | none =>
        refine Or.inl ?_
        simp only [processEntry, hp, hr]
        exact ⟨_, rfl⟩
      | some rec =>
        cases rec with
        | jmap m =>
          cases hso : spansOf m with
          | none =>
            refine Or.inl ?_
            simp only [processEntry, hp, hr, hso]
            exact ⟨_, rfl⟩
          | some spans =>
            have hall : spans.all wellTypedSpan = true := by
              simpa [wellTypedEntry, hr, hso] using hwt
            rcases processSpans_wt ev.Typ (recRequestId m) spans hall ctr with
              ⟨⟨tr, ctr'⟩, hok⟩ | ⟨s, herr⟩
            · refine Or.inl ?_
              simp only [processEntry, hp, hr, hso, hok]
              exact ⟨_, rfl⟩
            · refine Or.inr ⟨s, ?_⟩
              simp only [processEntry, hp, hr, hso, herr]
        | jstr s =>
          refine Or.inl ?_
          simp only [processEntry, hp, hr]
          exact ⟨_, rfl⟩
        | jnum q =>
          refine Or.inl ?_
          simp only [processEntry, hp, hr]
          exact ⟨_, rfl⟩
        | jint n =>
          refine Or.inl ?_
          simp only [processEntry, hp, hr]
          exact ⟨_, rfl⟩
        | jarr a =>
          refine Or.inl ?_
          simp only [processEntry, hp, hr]
          exact ⟨_, rfl⟩

theorem processEntry_bad (d : DispatcherInfo) (RequestID : String)
    (e : RawEntry) (hwt : wellTypedEntry e = true)
    (hbad : entryBadTimestamp e = true) :
    ∀ ctr, ∃ s, processEntry d RequestID e ctr = .error (.parseErr s) := by
  intro ctr
  cases e with
  | notLTE => simp [wellTypedEntry] at hwt
  | lte ev =>
    cases hp : parseRFC3339 ev.Time with
    | none => exact ⟨ev.Time, by simp [processEntry, hp]⟩
    | some ms =>
      cases hr : ev.Record with
      | none => simp [entryBadTimestamp, hp, hr] at hbad
      | some rec =>
        cases rec with
        | jmap m =>
          cases hso : spansOf m with
          | none => simp [entryBadTimestamp, hp, hr, hso] at hbad
          | some spans =>
            simp only [entryBadTimestamp, hp, hr, hso, Option.isNone_some,
              Bool.false_or] at hbad
            have hall : spans.all wellTypedSpan = true := by
              simpa [wellTypedEntry, hr, hso] using hwt
            obtain ⟨s, herr⟩ :=
              processSpans_bad ev.Typ (recRequestId m) spans hall hbad ctr
            refine ⟨s, ?_⟩
            simp only [processEntry, hp, hr, hso, herr]
        | jstr s => simp [entryBadTimestamp, hp, hr] at hbad
        | jnum q => simp [entryBadTimestamp, hp, hr] at hbad
        | jint n => simp [entryBadTimestamp, hp, hr] at hbad
        | jarr a => simp [entryBadTimestamp, hp, hr] at hbad

theorem processEntry_illtyped (d : DispatcherInfo) (RequestID : String)
    (e : RawEntry) (hwt : wellTypedEntry e = false) :
    ∀ ctr, processEntry d RequestID e ctr = .error .typeFault ∨
      ∃ s, processEntry d RequestID e ctr = .error (.parseErr s) := by
  intro ctr
  cases e with
  | notLTE => exact Or.inl rfl
  | lte ev =>
    cases hp : parseRFC3339 ev.Time with
    | none => exact Or.inr ⟨ev.Time, by simp [processEntry, hp]⟩
    | some ms =>
      cases hr : ev.Record with
      | none => simp [wellTypedEntry, hr] at hwt
      | some rec =>
        cases rec with
        | jmap m =>
          cases hso : spansOf m with
          | none => simp [wellTypedEntry, hr, hso] at hwt
          | some spans =>
            simp only [wellTypedEntry, hr, hso] at hwt
            rcases processSpans_illtyped ev.Typ (recRequestId m) spans hwt ctr
              with hft | ⟨s, herr⟩
            · refine Or.inl ?_
              simp only [processEntry, hp, hr, hso, hft]
            · refine Or.inr ⟨s, ?_⟩
              simp only [processEntry, hp, hr, hso, herr]
        | jstr s => simp [wellTypedEntry, hr] at hwt
        | jnum q => simp [wellTypedEntry, hr] at hwt
        | jint n => simp [wellTypedEntry, hr] at hwt
        | jarr a => simp [wellTypedEntry, hr] at hwt

theorem processEntries_wt (d : DispatcherInfo) (RequestID : String)
    (entries : List RawEntry) (hwt : wellTypedEntries entries = true) :
    ∀ ctr, (∃ P, processEntries d RequestID entries ctr = .ok P) ∨
      (∃ s, processEntries d RequestID entries ctr = .error (.parseErr s)) := by
  induction entries with
  | nil => intro ctr; exact Or.inl ⟨_, rfl⟩
  | cons e rest ih =>
    simp only [wellTypedEntries, List.all_cons, Bool.and_eq_true] at hwt
    obtain ⟨he, hrest⟩ := hwt
    intro ctr
    rcases processEntry_wt d RequestID e he ctr with ⟨⟨p, ctr'⟩, hok⟩ | ⟨s, herr⟩
    · rcases ih hrest ctr' with ⟨P, hok'⟩ | ⟨s, herr'⟩
      · refine Or.inl ?_
        simp only [processEntries, hok, hok']
        exact ⟨_, rfl⟩
      · refine Or.inr ⟨s, ?_⟩
        simp only [processEntries, hok, herr']
    · exact Or.inr ⟨s, by simp only [processEntries, herr]⟩

theorem processEntries_bad (d : DispatcherInfo) (RequestID : String)
    (entries : List RawEntry) (hwt : wellTypedEntries entries = true)
    (hbad : hasBadTimestamp entries = true) :
    ∀ ctr, ∃ s, processEntries d RequestID entries ctr = .error (.parseErr s) := by
  induction entries with
  | nil => simp [hasBadTimestamp] at hbad
  | cons e rest ih =>
    simp only [wellTypedEntries, List.all_cons, Bool.and_eq_true] at hwt
    obtain ⟨he, hrest⟩ := hwt
    simp only [hasBadTimestamp, List.any_cons, Bool.or_eq_true] at hbad
    intro ctr
    rcases hbad with h | h
    · obtain ⟨s, herr⟩ := processEntry_bad d RequestID e he h ctr
      exact ⟨s, by simp only [processEntries, herr]⟩
    · rcases processEntry_wt d RequestID e he ctr with ⟨⟨p, ctr'⟩, hok⟩ | ⟨s, herr⟩
      · obtain ⟨s, herr'⟩ := ih hrest h ctr'
        refine ⟨s, ?_⟩
        simp only [processEntries, hok, herr']
      · exact ⟨s, by simp only [processEntries, herr]⟩

theorem processEntries_illtyped (d : DispatcherInfo) (RequestID : String)
    (entries : List RawEntry) (hwt : wellTypedEntries entries = false) :
    ∀ ctr, processEntries d RequestID entries ctr = .error .typeFault ∨
      ∃ s, processEntries d RequestID entries ctr = .error (.parseErr s) := by
  induction entries with
  | nil => simp [wellTypedEntries] at hwt
  | cons e rest ih =>
    simp only [wellTypedEntries, List.all_cons, Bool.and_eq_false_iff] at hwt
    intro ctr
    rcases hwt with he | hrest
    · rcases processEntry_illtyped d RequestID e he ctr with hft | ⟨s, herr⟩
      · exact Or.inl (by simp only [processEntries, hft])
      · exact Or.inr ⟨s, by simp only [processEntries, herr]⟩
    · by_cases he : wellTypedEntry e = true
      · rcases processEntry_wt d RequestID e he ctr with ⟨⟨p, ctr'⟩, hok⟩ | ⟨s, herr⟩
        · rcases ih hrest ctr' with hft | ⟨s, herr'⟩
          · refine Or.inl ?_
            simp only [processEntries, hok, hft]
          · refine Or.inr ⟨s, ?_⟩
            simp only [processEntries, hok, herr']
        · exact Or.inr ⟨s, by simp only [processEntries, herr]⟩
      · rcases processEntry_illtyped d RequestID e (Bool.eq_false_iff.2 he) ctr
          with hft | ⟨s, herr⟩
        · exact Or.inl (by simp only [processEntries, hft])
        · exact Or.inr ⟨s, by simp only [processEntries, herr]⟩

/-- One per-signal portion of a dispatch cycle's ledger: the delivery
tasks launched (`sends`, as signal-type/chunk-index pairs), the amounts
passed to `waitForSend.Add` (`adds`, one list entry per `Add` call), the
values pushed into the buffered error channel (`errs`; `none` models a
nil error value being sent — see `tracesSegment`), the warnings logged,
and whether the splitter returned (`fuelOk = false` models the splitter
failing to terminate). -/
structure Segment where
  sends : List (String × Nat)
  adds : List Nat
  errs : List (Option String)
  warns : List String
  fuelOk : Bool

def emptySegment : Segment := ⟨[], [], [], [], true⟩

/-- The logging branch of `sendDataToNR` (src/unnamed/part_000, lines
324-341).  Note `waitForSend.Add(len(logPayloads))` sits inside the
per-chunk loop, so `adds` holds the chunk count once per chunk. -/
def logSegment (logging : List JVal) (fits : List JVal → Bool)
    (outcome : String → Nat → Option String) : Segment :=
  if logging.isEmpty then emptySegment
  else
    match marshalAndCompressData fits (logging.length + 1) logging with
    | none => { emptySegment with fuelOk := false }
    | some chunks =>
      { sends := (List.range chunks.length).map (fun i => ("logging", i)),
        adds := (List.range chunks.length).map (fun _ => chunks.length),
        errs := (List.range chunks.length).filterMap (fun i =>
          match outcome "logging" i with
          | some e => some (some e)
          | none => none),
        warns := [],
        fuelOk := true }

/-- The metrics branch of `sendDataToNR` (src/unnamed/part_000, lines
343-366): one envelope, one `Add(1)`, one task. -/
def metricsSegment (metrics : List JVal)
    (outcome : String → Nat → Option String) : Segment :=
  if metrics.isEmpty then emptySegment
  else
    { sends := [("metrics", 0)],
      adds := [1],
      errs := match outcome "metrics" 0 with
        | some e => [some e]
        | none => [],
      warns := [],
      fuelOk := true }

/-- The warning logged when events exist but no account identifier is
configured (src/unnamed/part_000, line 387). -/
def accountIDWarning : String :=
  "[telemetryApi:sendDataToNR] NEW_RELIC_ACCOUNT_ID is not set, therefore no events data sent"

/-- The events branch of `sendDataToNR` (src/unnamed/part_000, lines
368-389): chunks are produced only when the account identifier is
non-empty, and `Add` is called once, before the per-chunk loop; with no
account identifier only a warning is logged. -/
def eventsSegment (events : List JVal) (accountID : String)
    (fits : List JVal → Bool)
    (outcome : String → Nat → Option String) : Segment :=
  if events.isEmpty then emptySegment
  else if 0 < accountID.length then
    match marshalAndCompressData fits (events.length + 1) events with
    | none => { emptySegment with fuelOk := false }
    | some chunks =>
      { sends := (List.range chunks.length).map (fun i => ("events", i)),
        adds := [chunks.length],
        errs := (List.range chunks.length).filterMap (fun i =>
          match outcome "events" i with
          | some e => some (some e)
          | none => none),
        warns := [],
        fuelOk := true }
  else { emptySegment with warns := [accountIDWarning] }

/-- The traces branch of `sendDataToNR` (src/unnamed/part_000, lines
391-418).  The goroutine checks its own send result `er` but pushes the
enclosing `err` variable — the (nil) result of the traces `Compress`
call — into the channel, so a failed trace delivery contributes a nil
error value (`none`). -/
def tracesSegment (traces : List JVal)
    (outcome : String → Nat → Option String) : Segment :=
  if traces.isEmpty then emptySegment
  else
    { sends := [("traces", 0)],
      adds := [1],
      errs := match outcome "traces" 0 with
        | some _ => [none]
        | none => [],
      warns := [],
      fuelOk := true }

/-- The `fmt.Errorf` base message of the aggregate dispatch error
(src/unnamed/part_000, line 425). -/
def aggregateMsg (n : Nat) : String :=
  toString n ++ " errors occured while sending telemetry API payloads to New Relic"

/-- How one `sendDataToNR` call ends: `buildFailed` propagates a build
error (or panic) with nothing sent; `fuelOut` marks a non-terminating
splitter; `agg e` is the returned value after the join (`none` =
success); `drainPanic` marks a nil-pointer panic in the error drain
loop. -/
inductive RetVal where
  | buildFailed (e : BuildErr)
  | fuelOut
  | agg (e : Option String)
  | drainPanic
deriving DecidableEq

/-- The value `sendDataToNR` returns after the join, as a function of the
channel contents (src/unnamed/part_000, lines 424-431): no errors means
success; otherwise the count-only aggregate error — unless a nil error
value was pushed (see `tracesSegment`), in which case the drain loop's
`sendError.Error()` call panics. -/
def retOfErrs (errs : List (Option String)) : RetVal :=
  if 0 < errs.length then
    if errs.any (fun e => e.isNone) then .drainPanic
    else .agg (some (aggregateMsg errs.length))
  else .agg none

/-- The full ledger of one `sendDataToNR` call. -/
structure NROutcome where
  sends : List (String × Nat)
  adds : List Nat
  errs : List (Option String)
  warns : List String
  ret : RetVal

/-- The post-build portion of `sendDataToNR` (src/unnamed/part_000, lines
318-434): the four signal branches run in source order (concurrency is
recorded in the ledger: tasks launched, `Add` amounts, channel pushes,
each in launch order), then the join and the error aggregation.  A
non-terminating splitter (`fuelOk = false`) cuts the cycle short at the
branch that hangs. -/
def sendFromPayloads (P : Payloads) (d : DispatcherInfo)
    (fits : List JVal → Bool)
    (outcome : String → Nat → Option String) : NROutcome :=
  if (logSegment P.logging fits outcome).fuelOk = false then
    ⟨(logSegment P.logging fits outcome).sends,
     (logSegment P.logging fits outcome).adds,
     (logSegment P.logging fits outcome).errs,
     (logSegment P.logging fits outcome).warns, .fuelOut⟩
  else if (eventsSegment P.events d.accountID fits outcome).fuelOk = false then
    ⟨(logSegment P.logging fits outcome).sends ++
       (metricsSegment P.metrics outcome).sends ++
       (eventsSegment P.events d.accountID fits outcome).sends,
     (logSegment P.logging fits outcome).adds ++
       (metricsSegment P.metrics outcome).adds ++
       (eventsSegment P.events d.accountID fits outcome).adds,
     (logSegment P.logging fits outcome).errs ++
       (metricsSegment P.metrics outcome).errs ++
       (eventsSegment P.events d.accountID fits outcome).errs,
     (logSegment P.logging fits outcome).warns ++
       (metricsSegment P.metrics outcome).warns ++
       (eventsSegment P.events d.accountID fits outcome).warns, .fuelOut⟩
  else
    ⟨(logSegment P.logging fits outcome).sends ++
       (metricsSegment P.metrics outcome).sends ++
       (eventsSegment P.events d.accountID fits outcome).sends ++
       (tracesSegment P.traces outcome).sends,
     (logSegment P.logging fits outcome).adds ++
       (metricsSegment P.metrics outcome).adds ++
       (eventsSegment P.events d.accountID fits outcome).adds ++
       (tracesSegment P.traces outcome).adds,
     (logSegment P.logging fits outcome).errs ++
       (metricsSegment P.metrics outcome).errs ++
       (eventsSegment P.events d.accountID fits outcome).errs ++
       (tracesSegment P.traces outcome).errs,
     (logSegment P.logging fits outcome).warns ++
       (metricsSegment P.metrics outcome).warns ++
       (eventsSegment P.events d.accountID fits outcome).warns ++
       (tracesSegment P.traces outcome).warns,
     retOfErrs
       ((logSegment P.logging fits outcome).errs ++
        (metricsSegment P.metrics outcome).errs ++
        (eventsSegment P.events d.accountID fits outcome).errs ++
        (tracesSegment P.traces outcome).errs)⟩

/-- `sendDataToNR` (src/unnamed/part_000, lines 312-435): build the
payloads (propagating a parse error or panic with nothing sent), then run
the four delivery branches.  (`len(data) > 0` at line 318 is always true:
the map always holds its four keys.) -/
def sendDataToNR (logEntries : List RawEntry) (d : DispatcherInfo)
    (RequestID : String) (fits : List JVal → Bool)
    (outcome : String → Nat → Option String) : NROutcome :=
  match buildPayloads logEntries d RequestID with
  | .error e => ⟨[], [], [], [], .buildFailed e⟩
  | .ok P => sendFromPayloads P d fits outcome

/-- A concrete dispatcher identity used by several witnesses. -/
def sampleDisp : DispatcherInfo :=
  ⟨"sample-function", "arn:aws:lambda:us-east-1:1:function:sample", "lk", "99"⟩

/-- A concrete dispatcher identity with no account identifier. -/
def emptyAcctDisp : DispatcherInfo :=
  ⟨"sample-function", "arn:aws:lambda:us-east-1:1:function:sample", "lk", ""⟩

theorem logSegment_sends_fst (L : List JVal) (fits : List JVal → Bool)
    (outcome : String → Nat → Option String) :
    ∀ x ∈ (logSegment L fits outcome).sends, x.1 = "logging" := by
  intro x hx
  unfold logSegment at hx
  split at hx
  · simp [emptySegment] at hx
  · split at hx
    · simp [emptySegment] at hx
    · simp only [List.mem_map, List.mem_range] at hx
      obtain ⟨i, -, rfl⟩ := hx
      rfl

/-- Claim C5: if, in a well-typed harvest cycle, any record's primary
timestamp or any span's `start` field fails to parse as RFC3339, then
`buildPayloads` returns that parse error (not a partial result), and
`sendDataToNR` returns it before any delivery: the cycle's ledger shows
no launched task, no counter increment, no collected error and no
warning.  (Well-typedness is the no-panic precondition analysed in claim
C10; an ill-typed entry would abort the cycle by panicking even earlier.) -/
theorem c5_parse_failure_aborts_cycle (entries : List RawEntry)
    (d : DispatcherInfo) (RequestID : String) (fits : List JVal → Bool)
    (outcome : String → Nat → Option String)
    (hwt : wellTypedEntries entries = true)
    (hbad : hasBadTimestamp entries = true) :
    ∃ s, buildPayloads entries d RequestID = .error (.parseErr s) ∧
      sendDataToNR entries d RequestID fits outcome =
        ⟨[], [], [], [], .buildFailed (.parseErr s)⟩ := by
  obtain ⟨s, herr⟩ := processEntries_bad d RequestID entries hwt hbad 0
  have hb : buildPayloads entries d RequestID = .error (.parseErr s) := herr
  exact ⟨s, hb, by simp [sendDataToNR, hb]⟩

theorem c5_parse_failure_aborts_cycle_witness :
    ∃ s, buildPayloads [RawEntry.lte ⟨"not-a-timestamp", "function", none⟩]
        sampleDisp "req" = .error (.parseErr s) ∧
      sendDataToNR [RawEntry.lte ⟨"not-a-timestamp", "function", none⟩]
        sampleDisp "req" (fun l => true) (fun t i => none) =
        ⟨[], [], [], [], .buildFailed (.parseErr s)⟩ :=
  c5_parse_failure_aborts_cycle
    [RawEntry.lte ⟨"not-a-timestamp", "function", none⟩]
    sampleDisp "req" (fun l => true) (fun t i => none) rfl rfl

/-- Claim C10: `buildPayloads` never panics on inputs satisfying the
typing precondition (`wellTypedEntries`: every entry is a
`LambdaTelemetryEvent`, and every span value is a map whose `durationMs`
is a number and whose other fields, `start` included, are strings); a
violating input, however, need not panic — it panics or aborts with a
timestamp-parse error, whichever the entry loop reaches first, and never
returns a successful result. -/
theorem c10_typing_precondition (entries : List RawEntry)
    (d : DispatcherInfo) (RequestID : String) :
    (wellTypedEntries entries = true →
      buildPayloads entries d RequestID ≠ .error .typeFault) ∧
    (wellTypedEntries entries = false →
      buildPayloads entries d RequestID = .error .typeFault ∨
      ∃ s, buildPayloads entries d RequestID = .error (.parseErr s)) := by
  constructor
  · intro hwt
    rcases processEntries_wt d RequestID entries hwt 0 with ⟨P, hok⟩ | ⟨s, herr⟩
    · have hb : buildPayloads entries d RequestID = .ok P := hok
      simp [hb]
    · have hb : buildPayloads entries d RequestID = .error (.parseErr s) := herr
      simp [hb]
  · intro hwt
    exact processEntries_illtyped d RequestID entries hwt 0

theorem c10_typing_precondition_witness :
    buildPayloads [RawEntry.lte ⟨"2024-01-01T00:00:00Z", "function", none⟩]
        sampleDisp "req" ≠ .error .typeFault ∧
    (buildPayloads [RawEntry.notLTE] sampleDisp "req" = .error .typeFault ∨
      ∃ s, buildPayloads [RawEntry.notLTE] sampleDisp "req" =
        .error (.parseErr s)) :=
  ⟨(c10_typing_precondition
      [RawEntry.lte ⟨"2024-01-01T00:00:00Z", "function", none⟩]
      sampleDisp "req").1 rfl,
   (c10_typing_precondition [RawEntry.notLTE] sampleDisp "req").2 rfl⟩

/-- The violating input refuting claim C10 as stated: its first entry is a
well-formed `LambdaTelemetryEvent` with an unparseable timestamp and its
second entry is not a `LambdaTelemetryEvent` at all. -/
def c10entries : List RawEntry :=
  [.lte ⟨"not-a-timestamp", "function", none⟩, .notLTE]

/-- Counterexample to claim C10 as stated: `c10entries` violates the
typing precondition, yet `buildPayloads` does not fault on it — the first
entry's timestamp-parse failure returns an error value before the failing
type assertion on the second entry is ever reached. -/
theorem c10_violation_without_fault :
    wellTypedEntries c10entries = false ∧
    buildPayloads c10entries sampleDisp "req" =
      .error (.parseErr "not-a-timestamp") :=
  ⟨rfl, rfl⟩

theorem metricsSegment_sends_fst (M : List JVal)
    (outcome : String → Nat → Option String) :
    ∀ x ∈ (metricsSegment M outcome).sends, x.1 = "metrics" := by
  intro x hx
  unfold metricsSegment at hx
  split at hx
  · simp [emptySegment] at hx
  · simp at hx
    subst hx
    rfl

theorem tracesSegment_sends_fst (T : List JVal)
    (outcome : String → Nat → Option String) :
    ∀ x ∈ (tracesSegment T outcome).sends, x.1 = "traces" := by
  intro x hx
  unfold tracesSegment at hx
  split at hx
  · simp [emptySegment] at hx
  · simp at hx
    subst hx
    rfl

theorem sendFromPayloads_no_events_sends (P : Payloads) (d : DispatcherInfo)
    (fits : List JVal → Bool) (outcome : String → Nat → Option String)
    (h : (eventsSegment P.events d.accountID fits outcome).sends = []) :
    ∀ x ∈ (sendFromPayloads P d fits outcome).sends, x.1 ≠ "events" := by
  intro x hx
  unfold sendFromPayloads at hx
  split at hx
  · have hl := logSegment_sends_fst P.logging fits outcome x hx
    simp [hl]
  · split at hx
    · simp only [h, List.append_nil, List.mem_append] at hx
      rcases hx with hx | hx
      · have hl := logSegment_sends_fst P.logging fits outcome x hx
        simp [hl]
      · have hm := metricsSegment_sends_fst P.metrics outcome x hx
        simp [hm]
    · simp only [h, List.append_nil, List.nil_append, List.mem_append] at hx
      rcases hx with (hx | hx) | hx
      · have hl := logSegment_sends_fst P.logging fits outcome x hx
        simp [hl]
      · have hm := metricsSegment_sends_fst P.metrics outcome x hx
        simp [hm]
      · have ht := tracesSegment_sends_fst P.traces outcome x hx
        simp [ht]

/-- Claim C9: in any dispatch cycle whose built events collection is
non-empty while the configured account identifier is empty, no event
delivery task is launched, the missing-account warning is logged
(whenever the cycle reaches the events branch, i.e. the logging splitter
returned), and the missing identifier does not by itself change the
dispatch outcome: the launched tasks, counter increments, collected
errors and returned value all coincide with those of the same cycle run
with an empty events collection. -/
theorem c9_missing_account_skips_events (P : Payloads) (d : DispatcherInfo)
    (fits : List JVal → Bool) (outcome : String → Nat → Option String)
    (hacc : d.accountID = "") (hev : P.events ≠ []) :
    (∀ x ∈ (sendFromPayloads P d fits outcome).sends, x.1 ≠ "events") ∧
    ((logSegment P.logging fits outcome).fuelOk = true →
      accountIDWarning ∈ (sendFromPayloads P d fits outcome).warns) ∧
    (sendFromPayloads P d fits outcome).sends =
      (sendFromPayloads { P with events := [] } d fits outcome).sends ∧
    (sendFromPayloads P d fits outcome).adds =
      (sendFromPayloads { P with events := [] } d fits outcome).adds ∧
    (sendFromPayloads P d fits outcome).errs =
      (sendFromPayloads { P with events := [] } d fits outcome).errs ∧
    (sendFromPayloads P d fits outcome).ret =
      (sendFromPayloads { P with events := [] } d fits outcome).ret := by
  have hevF : P.events.isEmpty = false := by
    cases hP : P.events with
    | nil => exact absurd hP hev
    | cons a t => simp
  have h3 : eventsSegment P.events d.accountID fits outcome =
      ⟨[], [], [], [accountIDWarning], true⟩ := by
    simp [eventsSegment, hevF, hacc, emptySegment]
  have h3e : eventsSegment (Payloads.events { P with events := [] })
      d.accountID fits outcome = ⟨[], [], [], [], true⟩ := by
    simp [eventsSegment, emptySegment]
  refine ⟨sendFromPayloads_no_events_sends P d fits outcome
    (by rw [h3]), ?_, ?_, ?_, ?_, ?_⟩
  · intro hfo
    unfold sendFromPayloads
    rw [h3]
    simp [hfo]
  all_goals
    unfold sendFromPayloads
    rw [h3, h3e]
    by_cases hfo : (logSegment P.logging fits outcome).fuelOk = false
  all_goals simp [hfo]

theorem c9_missing_account_skips_events_witness :
    (∀ x ∈ (sendFromPayloads ⟨[JVal.jstr "e"], [], [], []⟩ emptyAcctDisp
        (fun l => true) (fun t i => none)).sends, x.1 ≠ "events") ∧
    ((logSegment ([] : List JVal) (fun l => true) (fun t i => none)).fuelOk = true →
      accountIDWarning ∈ (sendFromPayloads ⟨[JVal.jstr "e"], [], [], []⟩
        emptyAcctDisp (fun l => true) (fun t i => none)).warns) ∧
    (sendFromPayloads ⟨[JVal.jstr "e"], [], [], []⟩ emptyAcctDisp
        (fun l => true) (fun t i => none)).sends =
      (sendFromPayloads { (⟨[JVal.jstr "e"], [], [], []⟩ : Payloads) with
        events := [] } emptyAcctDisp (fun l => true) (fun t i => none)).sends ∧
    (sendFromPayloads ⟨[JVal.jstr "e"], [], [], []⟩ emptyAcctDisp
        (fun l => true) (fun t i => none)).adds =
      (sendFromPayloads { (⟨[JVal.jstr "e"], [], [], []⟩ : Payloads) with
        events := [] } emptyAcctDisp (fun l => true) (fun t i => none)).adds ∧
    (sendFromPayloads ⟨[JVal.jstr "e"], [], [], []⟩ emptyAcctDisp
        (fun l => true) (fun t i => none)).errs =
      (sendFromPayloads { (⟨[JVal.jstr "e"], [], [], []⟩ : Payloads) with
        events := [] } emptyAcctDisp (fun l => true) (fun t i => none)).errs ∧
    (sendFromPayloads ⟨[JVal.jstr "e"], [], [], []⟩ emptyAcctDisp
        (fun l => true) (fun t i => none)).ret =
      (sendFromPayloads { (⟨[JVal.jstr "e"], [], [], []⟩ : Payloads) with
        events := [] } emptyAcctDisp (fun l => true) (fun t i => none)).ret :=
  c9_missing_account_skips_events ⟨[JVal.jstr "e"], [], [], []⟩ emptyAcctDisp
    (fun l => true) (fun t i => none) rfl (by simp)

/-- Two raw entries with string record bodies: their build yields two
logging records (and two event records, which the empty account
identifier of `emptyAcctDisp` keeps out of delivery). -/
def c2entries : List RawEntry :=
  [.lte ⟨"2024-01-01T00:00:00Z", "function", some (.jstr "hello-one")⟩,
   .lte ⟨"2024-01-01T00:00:01Z", "function", some (.jstr "hello-two")⟩]

/-- Claim C2 (code bug): evaluating a dispatch cycle that produces two
compressed logging chunks (the compression model lets only single-record
payloads fit).  Exactly one delivery task is launched per chunk — two
tasks, hence two `Done` calls — but because
`waitForSend.Add(len(logPayloads))` sits inside the per-chunk loop
(src/unnamed/part_000, line 332), the join counter receives `Add(2)`
twice: four increments for two tasks, so the counter can never return to
zero and `waitForSend.Wait()` never completes.  The events path (line
376) shows the intended single `Add` before the loop. -/
theorem c2_waitgroup_overcount :
    (sendDataToNR c2entries emptyAcctDisp "req"
      (fun l => decide (l.length ≤ 1)) (fun t i => none)).adds = [2, 2] ∧
    (sendDataToNR c2entries emptyAcctDisp "req"
      (fun l => decide (l.length ≤ 1)) (fun t i => none)).sends =
      [("logging", 0), ("logging", 1)] ∧
    (2 + 2 : Nat) ≠ 2 :=
  ⟨rfl, rfl, by decide⟩

/-- One `Invocation` of the agent-telemetry batch.  Modelled from the
spec (§3): a request identifier plus the ordered raw telemetry
accumulated for that request (the Go `Invocation` type lives outside the
analysed sources). -/
structure Invocation where
  requestID : String
  telemetry : List String
deriving DecidableEq

/-- Modelled from the spec (§4.1): the agent-telemetry `Batch`
accumulator (repository code outside the analysed sources).  `ready`
abstracts the size/time thresholds behind `ReadyToHarvest()`. -/
structure Batch where
  invocations : List Invocation
  ready : Bool
deriving DecidableEq

/-- Modelled from the spec (§4.1): `AddTelemetry(requestID, bytes)`
appends to the named invocation, creating a placeholder when unknown. -/
def Batch.AddTelemetry (b : Batch) (requestID : String) (bytes : String) :
    Batch :=
  if b.invocations.any (fun inv => inv.requestID == requestID) then
    { b with invocations := b.invocations.map (fun inv =>
        if inv.requestID == requestID then
          { inv with telemetry := inv.telemetry ++ [bytes] }
        else inv) }
  else
    { b with invocations := b.invocations ++ [⟨requestID, [bytes]⟩] }

/-- Modelled from the spec (§4.1): `ReadyToHarvest()`. -/
def Batch.ReadyToHarvest (b : Batch) : Bool := b.ready

/-- Modelled from the spec (§4.1): `Harvest(force)` — if `force` is true,
always returns and clears everything regardless of thresholds; if false,
only when ready, otherwise no mutation. -/
def Batch.Harvest (b : Batch) (force : Bool) : List Invocation × Batch :=
  if force || b.ready then (b.invocations, { b with invocations := [] })
  else ([], b)

/-- The `AgentTelemetryDispatcher` state read by `Dispatch`
(src/unnamed/part_001, lines 10-15): the collect-data flag, the head of
the telemetry channel (`none` models an empty channel, so the select's
default branch runs), and the batch. -/
structure AgentTelemetryDispatcher where
  collectData : Bool
  pendingTelemetry : Option String
  batch : Batch

/-- `AgentTelemetryDispatcher.Dispatch` (src/unnamed/part_001, lines
41-65).  The returned invocation list is the harvest handed to
`harvestAgentTelemetry`, which sends it to the telemetry client whenever
it is non-empty; the returned dispatcher carries the updated channel and
batch state. -/
def AgentTelemetryDispatcher.Dispatch (disp : AgentTelemetryDispatcher)
    (requestID : String) (force : Bool) :
    List Invocation × AgentTelemetryDispatcher :=
  match disp.pendingTelemetry with
  | some telemetryBytes =>
    if !disp.collectData then ([], { disp with pendingTelemetry := none })
    else
      let disp' : AgentTelemetryDispatcher :=
        { disp with
          pendingTelemetry := none
          batch := disp.batch.AddTelemetry requestID telemetryBytes }
      if force then
        ((disp'.batch.Harvest true).1,
         { disp' with batch := (disp'.batch.Harvest true).2 })
      else if disp'.batch.ReadyToHarvest then
        ((disp'.batch.Harvest false).1,
         { disp' with batch := (disp'.batch.Harvest false).2 })
      else ([], disp')
  | none =>
    if force then
      ((disp.batch.Harvest true).1,
       { disp with batch := (disp.batch.Harvest true).2 })
    else if disp.batch.ReadyToHarvest then
      ((disp.batch.Harvest false).1,
       { disp with batch := (disp.batch.Harvest false).2 })
    else ([], disp)

/-- A dispatcher with collect-data disabled, one pending telemetry chunk
on the channel, and one invocation accumulated in the batch. -/
def c3disp : AgentTelemetryDispatcher :=
  ⟨false, some "agent-telemetry-chunk", ⟨[⟨"req-1", ["payload-1"]⟩], false⟩⟩

/-- Claim C3 (code bug): `Dispatch` with `force = true` on `c3disp` — the
collect-data flag is off and a telemetry chunk is pending — returns from
the select's drain branch before the harvest step: no invocation is
harvested or handed to the sender and the batch is left untouched,
contradicting the function's own documentation ("If force = true, collect
and send data no matter what").  The contrast conjunct shows the same
dispatcher with an empty channel does harvest everything. -/
theorem c3_forced_dispatch_drops_harvest :
    (c3disp.Dispatch "req-2" true).1 = [] ∧
    ((c3disp.Dispatch "req-2" true).2).batch = c3disp.batch ∧
    c3disp.batch.invocations ≠ [] ∧
    (({ c3disp with pendingTelemetry := none } :
        AgentTelemetryDispatcher).Dispatch "req-2" true).1 =
      c3disp.batch.invocations :=
  ⟨rfl, rfl, by decide, rfl⟩

/-- The error-aggregation block of `sendDataToNR` (src/unnamed/part_000,
lines 424-431) as a function of the drained error strings: when at least
one delivery failed, the base error is built from the count alone; the
loop then drains each error and computes `errors.Wrap(err,
sendError.Error())` — whose result is discarded (the fold keeps its
accumulator unchanged) — and returns the base error. -/
def aggregateSendErrors (errs : List String) : Option String :=
  if 0 < errs.length then
    some (errs.foldl (fun acc e => acc) (aggregateMsg errs.length))
  else none

/-- Whether the first character list starts with the second. -/
def startsWithChars : List Char → List Char → Bool
  | _, [] => true
  | [], _ :: _ => false
  | a :: as, b :: bs => a = b && startsWithChars as bs

/-- Whether the second character list occurs contiguously inside the
first; used to check what a returned error message does or does not
contain. -/
def containsChars : List Char → List Char → Bool
  | [], sub => startsWithChars [] sub
  | a :: rest, sub => startsWithChars (a :: rest) sub || containsChars rest sub

/-- Counterexample to claim C6 as stated: with one failed delivery whose
error is "connection refused", the aggregate error returned by the
dispatch is exactly the count-only message, and that message does not
contain the individual error's text — so the aggregate carries neither
the delivery error nor any signal type or chunk index. -/
theorem c6_aggregate_lacks_individual_errors :
    aggregateSendErrors ["connection refused"] =
      some "1 errors occured while sending telemetry API payloads to New Relic" ∧
    containsChars
      "1 errors occured while sending telemetry API payloads to New Relic".toList
      "connection refused".toList = false :=
  ⟨rfl, by decide⟩

/-- Claim C6, amended: the single aggregate error summarizes only the
number of failed deliveries; the individual delivery errors are drained
from the channel but the wrapped error is discarded (the `errors.Wrap`
result is never used), and no signal type or chunk index is attached —
formally, any two cycles with equally many failed deliveries, whatever
the individual errors, produce the identical aggregate error. -/
theorem c6_aggregate_count_only (errs errs' : List String)
    (h : errs.length = errs'.length) :
    aggregateSendErrors errs = aggregateSendErrors errs' := by
  have fold_const : ∀ (l : List String) (b : String),
      l.foldl (fun acc e => acc) b = b := by
    intro l
    induction l with
    | nil => intro b; rfl
    | cons x xs ih => intro b; exact ih b
  simp [aggregateSendErrors, fold_const, h]

theorem c6_aggregate_count_only_witness :
    aggregateSendErrors ["timeout from logging endpoint"] =
      aggregateSendErrors ["status 500 from metrics endpoint"] :=
  c6_aggregate_count_only ["timeout from logging endpoint"]
    ["status 500 from metrics endpoint"] rfl

/-- The outcome of the single `d.httpClient.Do(req)` call inside
`sendData` (src/unnamed/part_000, line 288), per the Go client contract
(exactly one of response and error is set): either a transport failure
with an error message, or a response carrying a status code, a status
line, and a body whose read (`io.ReadAll`) may itself fail. -/
inductive HttpCallResult where
  | failed (errMsg : String)
  | succeeded (statusCode : Nat) (status : String) (body : Except String String)

/-- `detecteErrorSendingBatch` (src/unnamed/part_000, lines 299-310):
a transport error is always an error; a status code of at least 300 turns
into an error carrying the status line and the response body (or the
body-read error); anything else is success (`none`). -/
def detecteErrorSendingBatch : HttpCallResult → Option String
  | .failed e =>
    some ("[telemetryApi:sendBatch] Telemetry client error: " ++ e)
  | .succeeded code status body =>
    if 300 ≤ code then
      match body with
      | .error readErr => some readErr
      | .ok b =>
        some ("[telemtryApi:sendBatch] Telemetry client response: [" ++
          status ++ "] " ++ b)
    else none

/-- `sendData` (src/unnamed/part_000, lines 270-297), the delivery
primitive: it performs the single client call and classifies it via
`detecteErrorSendingBatch`.  The client is modelled as a function of how
many calls were made so far; `calls` counts them, so the returned counter
exposes exactly how many attempts one `sendData` call performs.  (Request
construction, headers and the per-call timeout carry no claim and are not
modelled.) -/
def sendData (client : Nat → HttpCallResult) (calls : Nat) :
    Option String × Nat :=
  (detecteErrorSendingBatch (client calls), calls + 1)

/-- Claim C8: every single delivery call makes exactly one HTTP attempt
(the call counter advances by exactly one, whatever the outcome), a
transport-level failure yields an error, a response with status code at
least 300 yields an error carrying the response status and the response
body (when the body is readable), and any other response yields
success. -/
theorem c8_delivery_classification (client : Nat → HttpCallResult)
    (calls : Nat) :
    (sendData client calls).2 = calls + 1 ∧
    (∀ e, client calls = .failed e →
      (sendData client calls).1 =
        some ("[telemetryApi:sendBatch] Telemetry client error: " ++ e)) ∧
    (∀ code status b, client calls = .succeeded code status (.ok b) →
      300 ≤ code →
      (sendData client calls).1 =
        some ("[telemtryApi:sendBatch] Telemetry client response: [" ++
          status ++ "] " ++ b)) ∧
    (∀ code status body, client calls = .succeeded code status body →
      code < 300 → (sendData client calls).1 = none) := by
  refine ⟨rfl, ?_, ?_, ?_⟩
  · intro e he
    simp [sendData, detecteErrorSendingBatch, he]
  · intro code status b hc hge
    simp [sendData, detecteErrorSendingBatch, hc, hge]
  · intro code status body hc hlt
    simp [sendData, detecteErrorSendingBatch, hc, Nat.not_le.2 hlt]

theorem c8_delivery_classification_witness :
    (sendData (fun n => .failed "connection reset") 0).2 = 1 ∧
    (sendData (fun n => .failed "connection reset") 0).1 =
      some "[telemetryApi:sendBatch] Telemetry client error: connection reset" ∧
    (sendData (fun n => .succeeded 503 "503 Service Unavailable"
        (.ok "overloaded")) 0).1 =
      some "[telemtryApi:sendBatch] Telemetry client response: [503 Service Unavailable] overloaded" ∧
    (sendData (fun n => .succeeded 202 "202 Accepted" (.ok "")) 0).1 = none :=
  ⟨(c8_delivery_classification (fun n => .failed "connection reset") 0).1,
   (c8_delivery_classification (fun n => .failed "connection reset") 0).2.1
     "connection reset" rfl,
   (c8_delivery_classification
     (fun n => .succeeded 503 "503 Service Unavailable" (.ok "overloaded")) 0).2.2.1
     503 "503 Service Unavailable" "overloaded" rfl (by decide),
   (c8_delivery_classification
     (fun n => .succeeded 202 "202 Accepted" (.ok "")) 0).2.2.2
     202 "202 Accepted" (.ok "") rfl (by decide)⟩
